import Mathlib

/-!
Verification of the editor state manager in `src/core/note_editor.py`.

Shallow embedding conventions:
* Python `str` is modelled as `List Char`.
* `datetime.now()` is modelled as reading a monotone counter: each editor
  carries a `clock : Nat`, and every operation that calls `datetime.now()`
  in the source stores the current reading and advances the counter.
* Python's `re` library (an external dependency of the module) is modelled
  restricted to literal patterns: a non-empty pattern all of whose characters
  are alphanumeric or a space compiles to a literal matcher; every other
  pattern is modelled as failing to compile (as `"["` does in Python).
  Replacement strings are inserted literally (no backreference escapes).
  `re.IGNORECASE` is modelled by comparing lowercased characters.
* `collections.deque(maxlen = m)` is a `List` whose right end is the top;
  appending at capacity silently evicts the leftmost element.
* The threading fields (`_lock`, auto-save thread) and the modification
  callback list are not modelled: every public operation of the source runs
  entirely under one reentrant lock, so the sequential semantics embedded
  here is the per-call semantics, and callbacks neither read nor write
  editor state in the module.  The `on_auto_save` callback slot is modelled
  as a `Bool` (configured or not); `save` returns the content handed to the
  callback, when it is invoked, as an `Option (List Char)`.
-/

/-! ## Model of the `re` library (literal-pattern fragment) -/

/-- A character with no regex meta-meaning in the modelled fragment. -/
def isLitChar (c : Char) : Bool := c.isAlphanum || c = ' '

/-- Model of `re.compile`: a non-empty all-literal pattern compiles to
itself; any other pattern (e.g. `"["`) raises `re.error`, modelled as
`none`. -/
def reCompile (p : List Char) : Option (List Char) :=
  if p ≠ [] ∧ p.all isLitChar then some p else none

/-- Character comparison under a case-sensitivity flag
(`false` models `re.IGNORECASE`). -/
def chEq (cs : Bool) (a b : Char) : Bool :=
  if cs then a = b else a.toLower = b.toLower

/-- Whether the literal `p` matches a prefix of `t` under flag `cs`. -/
def litPrefix (cs : Bool) : List Char → List Char → Bool
  | [], _ => true
  | _ :: _, [] => false
  | a :: p, b :: t => chEq cs a b && litPrefix cs p t

/-- All non-overlapping leftmost matches of the literal `a :: p` in the
text, as half-open `(start, end)` offset pairs, scanning one character at
a time; `i` is the offset of the head of the remaining text and `k` the
number of characters still inside the previously matched span (the
non-overlapping semantics resumes after them).  Models `re.finditer`. -/
def reScanAux (cs : Bool) (a : Char) (p : List Char) :
    List Char → Nat → Nat → List (Nat × Nat)
  | [], _, _ => []
  | _ :: t, i, k + 1 => reScanAux cs a p t (i + 1) k
  | b :: t, i, 0 =>
    if chEq cs a b && litPrefix cs p t then
      (i, i + (p.length + 1)) :: reScanAux cs a p t (i + 1) p.length
    else
      reScanAux cs a p t (i + 1) 0

/-- Replace every non-overlapping leftmost match of the literal `a :: p`
by `repl`; `k` counts characters of the current match still to discard.
Models `re.sub` with `count` 0. -/
def reSubAllAux (cs : Bool) (a : Char) (p repl : List Char) : List Char → Nat → List Char
  | [], _ => []
  | _ :: t, k + 1 => reSubAllAux cs a p repl t k
  | b :: t, 0 =>
    if chEq cs a b && litPrefix cs p t then
      repl ++ reSubAllAux cs a p repl t p.length
    else
      b :: reSubAllAux cs a p repl t 0

/-- Replace only the leftmost match of the literal `a :: p` by `repl`.
Models `re.sub` with `count` 1. -/
def reSubFirst (cs : Bool) (a : Char) (p repl : List Char) : List Char → List Char
  | [] => []
  | b :: t =>
    if chEq cs a b && litPrefix cs p t then
      repl ++ t.drop p.length
    else
      b :: reSubFirst cs a p repl t

/-- Matches of a compiled pattern in a text (empty for the unreachable
empty compiled pattern: `reCompile` only yields non-empty literals). -/
def reFinditer (cs : Bool) (p text : List Char) : List (Nat × Nat) :=
  match p with
  | [] => []
  | a :: p => reScanAux cs a p text 0 0

/-- `re.sub` on a compiled pattern. -/
def reSub (cs : Bool) (p repl text : List Char) (all : Bool) : List Char :=
  match p with
  | [] => text
  | a :: p => if all then reSubAllAux cs a p repl text 0 else reSubFirst cs a p repl text

/-! ## EditorState (`note_editor.py` lines 30-43) -/

/-- Snapshot of content, timestamp, tag names and cursor position
(`EditorState` dataclass). -/
structure EditorState where
  content : List Char
  timestamp : Nat
  tags : List (List Char)
  cursor_position : Nat
  deriving DecidableEq, Repr

/-- The dataclass `__eq__`: structural equality on content, tags and
cursor position, deliberately ignoring the timestamp. -/
def EditorState.eqState (s t : EditorState) : Bool :=
  s.content = t.content ∧ s.tags = t.tags ∧ s.cursor_position = t.cursor_position

/-! ## UndoRedoManager (`note_editor.py` lines 46-92) -/

/-- `deque(maxlen := max).append x`: append at the right end, evicting
from the left when at capacity. -/
def dequeAppend {α : Type} (max : Nat) (s : List α) (x : α) : List α :=
  (s ++ [x]).drop (s.length + 1 - max)

/-- Two bounded stacks of snapshots (`UndoRedoManager`). -/
structure UndoRedoManager where
  max_history : Nat
  undo_stack : List EditorState
  redo_stack : List EditorState
  deriving DecidableEq, Repr

/-- `UndoRedoManager.__init__` (default `max_history` is 100). -/
def UndoRedoManager.init (max_history : Nat) : UndoRedoManager :=
  { max_history := max_history, undo_stack := [], redo_stack := [] }

/-- `push`: append to the undo stack and clear the redo stack. -/
def UndoRedoManager.push (m : UndoRedoManager) (state : EditorState) : UndoRedoManager :=
  { m with undo_stack := dequeAppend m.max_history m.undo_stack state,
           redo_stack := [] }

/-- `undo`: pop from the undo stack, append the popped state to the redo
stack, return it; `none` on an empty stack. -/
def UndoRedoManager.undo (m : UndoRedoManager) : UndoRedoManager × Option EditorState :=
  match m.undo_stack.getLast? with
  | none => (m, none)
  | some state =>
    ({ m with undo_stack := m.undo_stack.dropLast,
              redo_stack := dequeAppend m.max_history m.redo_stack state },
     some state)

/-- `redo`: pop from the redo stack, append the popped state to the undo
stack, return it; `none` on an empty stack. -/
def UndoRedoManager.redo (m : UndoRedoManager) : UndoRedoManager × Option EditorState :=
  match m.redo_stack.getLast? with
  | none => (m, none)
  | some state =>
    ({ m with redo_stack := m.redo_stack.dropLast,
              undo_stack := dequeAppend m.max_history m.undo_stack state },
     some state)

/-- `can_undo`. -/
def UndoRedoManager.can_undo (m : UndoRedoManager) : Bool := m.undo_stack.length > 0

/-- `can_redo`. -/
def UndoRedoManager.can_redo (m : UndoRedoManager) : Bool := m.redo_stack.length > 0

/-- `clear`. -/
def UndoRedoManager.clear (m : UndoRedoManager) : UndoRedoManager :=
  { m with undo_stack := [], redo_stack := [] }

/-! ## SearchEngine (`note_editor.py` lines 95-169) -/

/-- Recorded UI state of the search engine (the `search_pattern` field of
the source is assigned only in `__init__` and never used, so it is
omitted). -/
structure SearchEngine where
  last_search : List Char
  case_sensitive : Bool
  deriving DecidableEq, Repr

/-- `SearchEngine.__init__`. -/
def SearchEngine.init : SearchEngine :=
  { last_search := [], case_sensitive := false }

/-- The match list `find_all` computes for given explicit arguments (the
body of the `try` block, with the `except re.error` branch returning
`[]`). -/
def findAllMatches (cs : Bool) (pattern text : List Char) : List (Nat × Nat) :=
  match reCompile pattern with
  | some p => reFinditer cs p text
  | none => []

/-- `find_all`: records the pattern and the case-sensitivity flag, then
returns every non-overlapping match, `[]` on an invalid pattern. -/
def SearchEngine.find_all (s : SearchEngine) (text pattern : List Char)
    (case_sensitive : Bool) : SearchEngine × List (Nat × Nat) :=
  ({ s with last_search := pattern, case_sensitive := case_sensitive },
   findAllMatches case_sensitive pattern text)

/-- `find_next`: first match from `find_all` (run with the RECORDED
case-sensitivity flag) whose start is at least `from_position`. -/
def SearchEngine.find_next (s : SearchEngine) (text pattern : List Char)
    (from_position : Nat) : SearchEngine × Option (Nat × Nat) :=
  let r := s.find_all text pattern s.case_sensitive
  (r.1, r.2.find? (fun m => from_position ≤ m.1))

/-- `replace`: substitute the first (or every) match, using the RECORDED
case-sensitivity flag; on an invalid pattern return the text unchanged.
The engine state is not modified. -/
def SearchEngine.replace (s : SearchEngine) (text pattern replacement : List Char)
    (replace_all : Bool) : List Char :=
  match reCompile pattern with
  | some p => reSub s.case_sensitive p replacement text replace_all
  | none => text

/-! ## TagManager (`note_editor.py` lines 172-225) -/

/-- Tag details map and frequency map, both insertion-ordered association
lists, as Python dicts are. -/
structure TagManager where
  tags : List (List Char × List (List Char))
  tag_index : List (List Char × Nat)
  deriving DecidableEq, Repr

/-- `TagManager.__init__`. -/
def TagManager.init : TagManager := { tags := [], tag_index := [] }

/-- Association-list lookup membership (`tag in self.tag_index`). -/
def keyMem (k : List Char) (l : List (List Char × Nat)) : Bool :=
  l.any (fun kv => kv.1 = k)

/-- `add_tag`: succeeds iff the name is non-empty and not present. -/
def TagManager.add_tag (tm : TagManager) (tag : List Char) : TagManager × Bool :=
  if tag ≠ [] ∧ ¬ keyMem tag tm.tag_index then
    ({ tags := tm.tags ++ [(tag, [])], tag_index := tm.tag_index ++ [(tag, 0)] }, true)
  else
    (tm, false)

/-- `remove_tag`: succeeds iff present. -/
def TagManager.remove_tag (tm : TagManager) (tag : List Char) : TagManager × Bool :=
  if keyMem tag tm.tag_index then
    ({ tags := tm.tags.filter (fun kv => kv.1 ≠ tag),
       tag_index := tm.tag_index.filter (fun kv => kv.1 ≠ tag) }, true)
  else
    (tm, false)

/-- `get_all_tags`: the keys of `tag_index` in insertion order. -/
def TagManager.get_all_tags (tm : TagManager) : List (List Char) :=
  tm.tag_index.map (fun kv => kv.1)

/-- `increment_tag_usage`: bump the counter when present, otherwise no-op. -/
def TagManager.increment_tag_usage (tm : TagManager) (tag : List Char) : TagManager :=
  { tm with tag_index :=
      tm.tag_index.map (fun kv => if kv.1 = tag then (kv.1, kv.2 + 1) else kv) }

/-- `get_tags_by_frequency`: `sorted(..., key := count, reverse := True)` is a
stable descending sort; `sorted_tags[:limit] if limit else sorted_tags`
truncates only for a truthy limit, so both `None` and `0` return the full
list. -/
def TagManager.get_tags_by_frequency (tm : TagManager) (limit : Option Nat) :
    List (List Char × Nat) :=
  let sorted_tags := tm.tag_index.insertionSort (fun a b => b.2 ≤ a.2)
  match limit with
  | none => sorted_tags
  | some n => if n ≠ 0 then sorted_tags.take n else sorted_tags

/-! ## NoteEditor (`note_editor.py` lines 228-637) -/

/-- The two themes. -/
inductive Theme where
  | LIGHT
  | DARK
  deriving DecidableEq, Repr

/-- The aggregate editor state (`NoteEditor`).  `on_auto_save` records
whether a save callback is configured (the callback body is external);
`clock` is the monotone counter modelling `datetime.now()`. -/
structure NoteEditor where
  content : List Char
  title : List Char
  created_at : Nat
  modified_at : Nat
  undo_redo : UndoRedoManager
  search_engine : SearchEngine
  tag_manager : TagManager
  current_state : EditorState
  cursor_position : Nat
  selection_start : Nat
  selection_end : Nat
  theme : Theme
  auto_save_interval : Nat
  auto_save_enabled : Bool
  last_save_time : Nat
  on_auto_save : Bool
  is_modified : Bool
  clock : Nat
  deriving DecidableEq, Repr

/-- `NoteEditor.__init__` (the four `datetime.now()` readings are the
counter values 0..3, in source order). -/
def NoteEditor.init (auto_save_interval : Nat) : NoteEditor :=
  { content := []
    title := []
    created_at := 0
    modified_at := 1
    undo_redo := UndoRedoManager.init 100
    search_engine := SearchEngine.init
    tag_manager := TagManager.init
    current_state := { content := [], timestamp := 2, tags := [], cursor_position := 0 }
    cursor_position := 0
    selection_start := 0
    selection_end := 0
    theme := Theme.LIGHT
    auto_save_interval := auto_save_interval
    auto_save_enabled := auto_save_interval > 0
    last_save_time := 3
    on_auto_save := false
    is_modified := false
    clock := 4 }

/-- `set_content`: push the current snapshot when `save_state` holds and
the content changes, then replace the content wholesale. -/
def NoteEditor.set_content (e : NoteEditor) (content : List Char) (save_state : Bool) :
    NoteEditor :=
  let ur := if save_state ∧ e.content ≠ content then e.undo_redo.push e.current_state
            else e.undo_redo
  { e with undo_redo := ur
           content := content
           modified_at := e.clock
           is_modified := true
           current_state := { content := content, timestamp := e.clock + 1,
                              cursor_position := e.cursor_position,
                              tags := e.tag_manager.get_all_tags }
           clock := e.clock + 2 }

/-- `insert_text`: splice `text` in at `position` (default: the cursor),
advancing the cursor past the insertion; always pushes a snapshot. -/
def NoteEditor.insert_text (e : NoteEditor) (text : List Char) (position : Option Nat) :
    NoteEditor :=
  let pos := position.getD e.cursor_position
  let newContent := e.content.take pos ++ text ++ e.content.drop pos
  { e with undo_redo := e.undo_redo.push e.current_state
           content := newContent
           cursor_position := pos + text.length
           modified_at := e.clock
           is_modified := true
           current_state := { content := newContent, timestamp := e.clock + 1,
                              cursor_position := pos + text.length,
                              tags := e.tag_manager.get_all_tags }
           clock := e.clock + 2 }

/-- `delete_range`: remove the span `[start, stop)`, placing the cursor at
`start`; always pushes a snapshot. -/
def NoteEditor.delete_range (e : NoteEditor) (start stop : Nat) : NoteEditor :=
  let newContent := e.content.take start ++ e.content.drop stop
  { e with undo_redo := e.undo_redo.push e.current_state
           content := newContent
           cursor_position := start
           modified_at := e.clock
           is_modified := true
           current_state := { content := newContent, timestamp := e.clock + 1,
                              cursor_position := start,
                              tags := e.tag_manager.get_all_tags }
           clock := e.clock + 2 }

/-- `undo`: restore content and cursor from the popped snapshot; `false`
when the undo stack is empty. -/
def NoteEditor.undo (e : NoteEditor) : NoteEditor × Bool :=
  match e.undo_redo.undo with
  | (ur, some state) =>
    ({ e with undo_redo := ur
              content := state.content
              cursor_position := state.cursor_position
              is_modified := true
              current_state := state }, true)
  | (_, none) => (e, false)

/-- `redo`: restore content and cursor from the popped redo snapshot;
`false` when the redo stack is empty. -/
def NoteEditor.redo (e : NoteEditor) : NoteEditor × Bool :=
  match e.undo_redo.redo with
  | (ur, some state) =>
    ({ e with undo_redo := ur
              content := state.content
              cursor_position := state.cursor_position
              is_modified := true
              current_state := state }, true)
  | (_, none) => (e, false)

/-- `search`: delegate to `find_all` on the current content. -/
def NoteEditor.search (e : NoteEditor) (pattern : List Char) (case_sensitive : Bool) :
    NoteEditor × List (Nat × Nat) :=
  let r := e.search_engine.find_all e.content pattern case_sensitive
  ({ e with search_engine := r.1 }, r.2)

/-- `replace`: always pushes the current snapshot first, substitutes via
the search engine, then computes the count as the DIFFERENCE of the match
counts of the old and new content (both taken case-insensitively, the
`find_all` default), and applies the mutation protocol only when that
count is positive.  Returns `(count, content)`. -/
def NoteEditor.replace (e : NoteEditor) (pattern replacement : List Char)
    (replace_all : Bool) : NoteEditor × Int × List Char :=
  let ur := e.undo_redo.push e.current_state
  let old_content := e.content
  let new_content := e.search_engine.replace e.content pattern replacement replace_all
  let r1 := e.search_engine.find_all old_content pattern false
  let r2 := r1.1.find_all new_content pattern false
  let count : Int := (r1.2.length : Int) - (r2.2.length : Int)
  if 0 < count then
    let e' := { e with undo_redo := ur
                       search_engine := r2.1
                       content := new_content
                       modified_at := e.clock
                       is_modified := true
                       current_state := { content := new_content, timestamp := e.clock + 1,
                                          cursor_position := e.cursor_position,
                                          tags := e.tag_manager.get_all_tags }
                       clock := e.clock + 2 }
    (e', count, new_content)
  else
    ({ e with undo_redo := ur, search_engine := r2.1 }, count, old_content)

/-- `get_popular_tags` (default limit 10 passed explicitly by callers). -/
def NoteEditor.get_popular_tags (e : NoteEditor) (limit : Nat) : List (List Char × Nat) :=
  e.tag_manager.get_tags_by_frequency (some limit)

/-- `set_cursor_position`: clamp into `[0, len(content)]` (the lower clamp
is vacuous over `Nat`). -/
def NoteEditor.set_cursor_position (e : NoteEditor) (position : Nat) : NoteEditor :=
  { e with cursor_position := min position e.content.length }

/-- `save`: invoke the callback with the content iff one is configured and
the editor is modified, then stamp `last_save_time` and clear the flag.
The second component is the content handed to the callback, if any. -/
def NoteEditor.save (e : NoteEditor) : NoteEditor × Option (List Char) :=
  let emitted := if e.on_auto_save ∧ e.is_modified then some e.content else none
  ({ e with last_save_time := e.clock, is_modified := false, clock := e.clock + 1 }, emitted)

/-! ## Call sequences for the round-trip property -/

/-- One mutating buffer call, as quantified over in the history
round-trip property (`set_content` with `save_state := true`). -/
inductive EditOp where
  | insert (text : List Char) (position : Option Nat)
  | deleteRange (start stop : Nat)
  | setContent (content : List Char)
  deriving DecidableEq, Repr

/-- Apply one mutating call. -/
def applyOp (e : NoteEditor) : EditOp → NoteEditor
  | EditOp.insert text position => e.insert_text text position
  | EditOp.deleteRange start stop => e.delete_range start stop
  | EditOp.setContent content => e.set_content content true

/-- Apply a sequence of mutating calls, left to right. -/
def applyOps (e : NoteEditor) : List EditOp → NoteEditor
  | [] => e
  | op :: rest => applyOps (applyOp e op) rest

/-- Apply `n` consecutive `undo` calls. -/
def applyUndos (e : NoteEditor) : Nat → NoteEditor
  | 0 => e
  | n + 1 => applyUndos e.undo.1 n

/-- The side condition under which a mutating call pushes a snapshot:
`insert_text` and `delete_range` always do, `set_content` (with
`save_state`) only when the argument differs from the current content. -/
def opGuard (op : EditOp) (e : NoteEditor) : Bool :=
  match op with
  | EditOp.setContent c => decide (c ≠ e.content)
  | _ => true

/-- Every `set_content` in the sequence is given an argument different
from the content current at its call site (so each call pushes a
snapshot). -/
def opsValid (e : NoteEditor) : List EditOp → Bool
  | [] => true
  | op :: rest => opGuard op e && opsValid (applyOp e op) rest

/-- No position of the text starts a match of the literal `a :: p`. -/
def noOccur (cs : Bool) (a : Char) (p : List Char) : List Char → Bool
  | [] => true
  | b :: t => !(chEq cs a b && litPrefix cs p t) && noOccur cs a p t

/-! ## Helper lemmas about the regex model -/

/-- Characters equal under some flag are equal case-insensitively. -/
theorem chEq_mono {cs : Bool} {a b : Char} (h : chEq cs a b = true) :
    chEq false a b = true := by
  cases cs with
  | false => exact h
  | true =>
    have hab : a = b := by simpa [chEq] using h
    simp [chEq, hab]

/-- A case-sensitive literal prefix match is also a case-insensitive one. -/
theorem litPrefix_mono {cs : Bool} : ∀ {p t : List Char},
    litPrefix cs p t = true → litPrefix false p t = true
  | [], _, _ => rfl
  | _ :: _, [], h => by simp [litPrefix] at h
  | a :: p, b :: t, h => by
    simp only [litPrefix, Bool.and_eq_true] at h ⊢
    exact ⟨chEq_mono h.1, litPrefix_mono h.2⟩

/-- The scanner (outside any matched span) finds nothing iff no position
starts a match. -/
theorem reScanAux_eq_nil_iff (cs : Bool) (a : Char) (p : List Char) :
    ∀ (t : List Char) (i : Nat), (reScanAux cs a p t i 0 = [] ↔ noOccur cs a p t = true)
  | [], _ => by simp [reScanAux, noOccur]
  | b :: t, i => by
    cases hg : (chEq cs a b && litPrefix cs p t) with
    | true => simp [reScanAux, noOccur, hg]
    | false => simp [reScanAux, noOccur, hg, reScanAux_eq_nil_iff cs a p t (i + 1)]

/-- If nothing matches case-insensitively, nothing matches under any flag. -/
theorem noOccur_mono {cs : Bool} {a : Char} {p : List Char} :
    ∀ {t : List Char}, noOccur false a p t = true → noOccur cs a p t = true
  | [], _ => rfl
  | b :: t, h => by
    simp only [noOccur, Bool.and_eq_true, Bool.not_eq_true' ] at h
    obtain ⟨h1, h2⟩ := h
    have h2c : noOccur cs a p t = true := noOccur_mono h2
    simp only [noOccur, Bool.and_eq_true, Bool.not_eq_true' , h2c, and_true]
    cases hc : chEq cs a b with
    | false => simp
    | true =>
      cases hl : litPrefix cs p t with
      | false => simp
      | true =>
        exfalso
        rw [chEq_mono hc, litPrefix_mono hl] at h1
        simp at h1

/-- Replace-all over a match-free text returns it unchanged. -/
theorem reSubAllAux_of_noOccur {cs : Bool} {a : Char} {p repl : List Char} :
    ∀ {t : List Char}, noOccur cs a p t = true → reSubAllAux cs a p repl t 0 = t
  | [], _ => by simp [reSubAllAux]
  | b :: t, h => by
    simp only [noOccur, Bool.and_eq_true, Bool.not_eq_true' ] at h
    simp [reSubAllAux, h.1, reSubAllAux_of_noOccur h.2]

/-- Replace-first over a match-free text returns it unchanged. -/
theorem reSubFirst_of_noOccur {cs : Bool} {a : Char} {p repl : List Char} :
    ∀ {t : List Char}, noOccur cs a p t = true → reSubFirst cs a p repl t = t
  | [], _ => by simp [reSubFirst]
  | b :: t, h => by
    simp only [noOccur, Bool.and_eq_true, Bool.not_eq_true' ] at h
    simp [reSubFirst, h.1, reSubFirst_of_noOccur h.2]

/-! ## Claim theorems -/

/-- C5: for every engine state, text, and pattern that fails to compile,
`find_all` returns the empty sequence and `replace` returns the input
text unchanged; the `except re.error` branch (the `none` case of the
compile model) never propagates an error to the caller. -/
theorem find_all_replace_invalid (s : SearchEngine) (text pattern replacement : List Char)
    (cs all : Bool) (h : reCompile pattern = none) :
    (s.find_all text pattern cs).2 = [] ∧
    s.replace text pattern replacement all = text := by
  constructor
  · simp [SearchEngine.find_all, findAllMatches, h]
  · simp [SearchEngine.replace, h]

/-- Witness for C5 at the spec's own example: the invalid pattern `"["`. -/
theorem find_all_replace_invalid_witness :
    reCompile (['[']) = none ∧
    (SearchEngine.init.find_all (['a', 'b']) (['[']) false).2 = [] ∧
    SearchEngine.init.replace (['a', 'b']) (['[']) (['z']) true = ['a', 'b'] := by
  refine ⟨by decide, ?_⟩
  exact find_all_replace_invalid SearchEngine.init (['a', 'b']) (['[']) (['z']) false true
    (by decide)

/-- C3 counterexample: the case-sensitivity recorded by an earlier
`find_all` call changes the result of a later `find_next` with identical
explicit arguments, so the recorded state does influence subsequent
calls.  A fresh engine finds the case-insensitive match of `"a"` in
`"A"`; the same engine after `find_all("", "x", case_sensitive := True)`
finds nothing. -/
theorem find_next_depends_on_recorded_state :
    (SearchEngine.init.find_next (['A']) (['a']) 0).2 = some (0, 1) ∧
    (((SearchEngine.init.find_all [] (['x']) true).1).find_next (['A']) (['a']) 0).2
      = none := by decide

/-- C3 amended: `find_all` results never depend on the recorded state,
and the recorded last pattern never influences `find_next` or `replace`;
but the case-sensitivity flag recorded by the most recent `find_all`
call does determine the matching of `find_next` and `replace`: two
engine states agreeing on that flag produce identical results for every
explicit argument list. -/
theorem results_determined_by_recorded_cs (s₁ s₂ : SearchEngine)
    (text pattern replacement : List Char) (from_position : Nat) (cs all : Bool)
    (h : s₁.case_sensitive = s₂.case_sensitive) :
    (s₁.find_all text pattern cs).2 = (s₂.find_all text pattern cs).2 ∧
    (s₁.find_next text pattern from_position).2 = (s₂.find_next text pattern from_position).2 ∧
    s₁.replace text pattern replacement all = s₂.replace text pattern replacement all := by
  refine ⟨rfl, ?_, ?_⟩
  · simp [SearchEngine.find_next, SearchEngine.find_all, h]
  · simp [SearchEngine.replace, h]

/-- Witness for C3 amended: two engines with different recorded patterns
but the same recorded flag agree on `find_next` and `replace`. -/
theorem results_determined_by_recorded_cs_witness :
    ({ last_search := ['x'], case_sensitive := false } : SearchEngine).case_sensitive
      = ({ last_search := ['y'], case_sensitive := false } : SearchEngine).case_sensitive ∧
    (({ last_search := ['x'], case_sensitive := false } : SearchEngine).find_next
        (['A']) (['a']) 0).2
      = (({ last_search := ['y'], case_sensitive := false } : SearchEngine).find_next
        (['A']) (['a']) 0).2 := by
  refine ⟨rfl, ?_⟩
  exact (results_determined_by_recorded_cs
    { last_search := ['x'], case_sensitive := false }
    { last_search := ['y'], case_sensitive := false }
    (['A']) (['a']) (['b']) 0 false false rfl).2.1

/-- C8: `save` on a modified editor with no configured save callback
clears the modified flag and stamps `last_save_time` with the current
clock reading, yet hands the content to no callback (the emitted
component is `none`): the pending modification is silently dropped. -/
theorem save_without_callback (e : NoteEditor) (hcb : e.on_auto_save = false)
    (_hm : e.is_modified = true) :
    e.save.2 = none ∧ e.save.1.is_modified = false ∧
    e.save.1.last_save_time = e.clock ∧ e.save.1.content = e.content := by
  simp [NoteEditor.save, hcb]

/-- Witness for C8: a freshly modified editor with no callback. -/
theorem save_without_callback_witness :
    ((NoteEditor.init 0).set_content (['h', 'i']) false).on_auto_save = false ∧
    ((NoteEditor.init 0).set_content (['h', 'i']) false).is_modified = true ∧
    ((NoteEditor.init 0).set_content (['h', 'i']) false).save.2 = none ∧
    ((NoteEditor.init 0).set_content (['h', 'i']) false).save.1.is_modified = false := by
  refine ⟨by decide, by decide, ?_⟩
  have h := save_without_callback ((NoteEditor.init 0).set_content (['h', 'i']) false)
    (by decide) (by decide)
  exact ⟨h.1, h.2.1⟩

/-- C9: `undo` and `redo` never alter the tag manager (nor the title,
theme, selection bounds, save configuration or clock), even though every
snapshot carries a list of tag names: snapshots are restored onto the
buffer only, never applied to the `TagManager`. -/
theorem undo_redo_preserve_tags (e : NoteEditor) :
    e.undo.1.tag_manager = e.tag_manager ∧ e.redo.1.tag_manager = e.tag_manager ∧
    e.undo.1.title = e.title ∧ e.redo.1.title = e.title ∧
    e.undo.1.theme = e.theme ∧ e.redo.1.theme = e.theme ∧
    e.undo.1.selection_start = e.selection_start ∧ e.undo.1.selection_end = e.selection_end ∧
    e.undo.1.on_auto_save = e.on_auto_save ∧ e.redo.1.on_auto_save = e.on_auto_save ∧
    e.undo.1.clock = e.clock ∧ e.redo.1.clock = e.clock := by
  rcases hu : e.undo_redo.undo with ⟨ur, su⟩
  rcases hr : e.undo_redo.redo with ⟨rr, sr⟩
  cases su <;> cases sr <;> simp [NoteEditor.undo, NoteEditor.redo, hu, hr]

/-- C10: `get_tags_by_frequency` with limit 0 returns the full sorted
(name, count) list, not the empty list, because `sorted_tags[:limit] if
limit else sorted_tags` treats the falsy limit 0 like `None`. -/
theorem get_tags_by_frequency_zero_limit (tm : TagManager) (h : tm.tag_index ≠ []) :
    tm.get_tags_by_frequency (some 0) = tm.get_tags_by_frequency none ∧
    tm.get_tags_by_frequency (some 0) ≠ [] := by
  have hfull : tm.get_tags_by_frequency (some 0)
      = List.insertionSort (fun a b => b.2 ≤ a.2) tm.tag_index := by
    simp [TagManager.get_tags_by_frequency]
  refine ⟨by simp [TagManager.get_tags_by_frequency], ?_⟩
  rw [hfull]
  intro hnil
  have hperm := List.perm_insertionSort (fun a b : List Char × Nat => b.2 ≤ a.2) tm.tag_index
  rw [hnil] at hperm
  exact h (hperm.nil_eq).symm

/-- Witness for C10: a manager holding one tag. -/
theorem get_tags_by_frequency_zero_limit_witness :
    ((TagManager.init.add_tag (['a'])).1).tag_index ≠ [] ∧
    ((TagManager.init.add_tag (['a'])).1).get_tags_by_frequency (some 0) = [(['a'], 0)] := by
  refine ⟨by decide, ?_⟩
  have h := get_tags_by_frequency_zero_limit ((TagManager.init.add_tag (['a'])).1) (by decide)
  calc ((TagManager.init.add_tag (['a'])).1).get_tags_by_frequency (some 0)
      = ((TagManager.init.add_tag (['a'])).1).get_tags_by_frequency none := h.1
    _ = [(['a'], 0)] := by decide

/-- If the pattern has no case-insensitive match in the text, the search
engine's `replace` returns the text unchanged whatever flag the engine
has recorded (a case-sensitive match would also be a case-insensitive
one). -/
theorem replace_eq_of_no_match {pattern text : List Char}
    (h : findAllMatches false pattern text = []) (s : SearchEngine)
    (repl : List Char) (all : Bool) :
    s.replace text pattern repl all = text := by
  unfold SearchEngine.replace
  cases hc : reCompile pattern with
  | none => rfl
  | some p =>
    cases p with
    | nil => simp [reSub]
    | cons a q =>
      have hm : reScanAux false a q text 0 0 = [] := by
        simpa [findAllMatches, hc, reFinditer] using h
      have hno : noOccur false a q text = true := (reScanAux_eq_nil_iff _ _ _ _ 0).mp hm
      have hnoc : noOccur s.case_sensitive a q text = true := noOccur_mono hno
      cases all with
      | true => simp [reSub, reSubAllAux_of_noOccur hnoc]
      | false => simp [reSub, reSubFirst_of_noOccur hnoc]

/-- C2 counterexample: a zero-match `NoteEditor.replace` (pattern
`"foo"` over content `"bar"`) returns count 0 and leaves `is_modified`
unchanged, yet it grows the undo stack from 0 to 1 entries — the claim
that no entry is pushed fails on the code, which pushes before checking
the count. -/
theorem replace_zero_match_counterexample :
    (((NoteEditor.init 0).set_content (['b', 'a', 'r']) false).replace
        (['f', 'o', 'o']) (['b', 'a', 'z']) true).2.1 = 0 ∧
    (((NoteEditor.init 0).set_content (['b', 'a', 'r']) false).replace
        (['f', 'o', 'o']) (['b', 'a', 'z']) true).1.is_modified
      = ((NoteEditor.init 0).set_content (['b', 'a', 'r']) false).is_modified ∧
    ((NoteEditor.init 0).set_content (['b', 'a', 'r']) false).undo_redo.undo_stack.length
      = 0 ∧
    (((NoteEditor.init 0).set_content (['b', 'a', 'r']) false).replace
        (['f', 'o', 'o']) (['b', 'a', 'z']) true).1.undo_redo.undo_stack.length = 1 := by
  refine ⟨by decide, by decide, by decide, by decide⟩

/-- C2 amended: a `replace` whose pattern matches nowhere in the current
content returns count 0, leaves the content and `is_modified` unchanged
— but it still unconditionally pushes the pre-call snapshot onto the
undo stack (clearing the redo stack), because the source pushes before
computing the count. -/
theorem replace_zero_match (e : NoteEditor) (pattern replacement : List Char)
    (all : Bool) (h : findAllMatches false pattern e.content = []) :
    (e.replace pattern replacement all).2.1 = 0 ∧
    (e.replace pattern replacement all).2.2 = e.content ∧
    (e.replace pattern replacement all).1.content = e.content ∧
    (e.replace pattern replacement all).1.is_modified = e.is_modified ∧
    (e.replace pattern replacement all).1.undo_redo
      = e.undo_redo.push e.current_state := by
  have hsub := replace_eq_of_no_match h e.search_engine replacement all
  unfold NoteEditor.replace
  simp [SearchEngine.find_all, hsub, h]

/-- Witness for C2 amended at content `"bar"` and pattern `"foo"`. -/
theorem replace_zero_match_witness :
    findAllMatches false (['f', 'o', 'o'])
        ((NoteEditor.init 0).set_content (['b', 'a', 'r']) false).content = [] ∧
    (((NoteEditor.init 0).set_content (['b', 'a', 'r']) false).replace
        (['f', 'o', 'o']) (['x']) false).2.1 = 0 := by
  refine ⟨by decide, ?_⟩
  exact (replace_zero_match ((NoteEditor.init 0).set_content (['b', 'a', 'r']) false)
    (['f', 'o', 'o']) (['x']) false (by decide)).1

/-- A `redo` on an empty redo stack is a soft no-op. -/
theorem redo_noop_of_empty (e : NoteEditor) (h : e.undo_redo.redo_stack = []) :
    e.redo = (e, false) := by
  simp [NoteEditor.redo, UndoRedoManager.redo, h]

/-- C6: `push` always clears the redo stack entirely, and every mutating
editor call that pushes a snapshot (`insert_text`, `delete_range`, or a
content-changing `set_content`) leaves an empty redo stack, so a
subsequent `redo` — in particular one issued after an undo followed by
such a call — fails softly, returning the editor unchanged with the
no-op signal `false`. -/
theorem push_clears_redo (m : UndoRedoManager) (st : EditorState) (e : NoteEditor)
    (op : EditOp) (hop : opGuard op e = true) :
    (m.push st).redo_stack = [] ∧
    (applyOp e op).undo_redo.redo_stack = [] ∧
    (applyOp e op).redo = (applyOp e op, false) := by
  have hredo : (applyOp e op).undo_redo.redo_stack = [] := by
    cases op with
    | insert text pos => simp [applyOp, NoteEditor.insert_text, UndoRedoManager.push]
    | deleteRange a b => simp [applyOp, NoteEditor.delete_range, UndoRedoManager.push]
    | setContent c =>
      have hne : e.content ≠ c := fun hcc => by
        simp [opGuard, hcc.symm] at hop
      simp [applyOp, NoteEditor.set_content, hne, UndoRedoManager.push]
  exact ⟨rfl, hredo, redo_noop_of_empty _ hredo⟩

/-- Witness for C6: undo after an insert, then a fresh insert; redo then
fails softly. -/
theorem push_clears_redo_witness :
    opGuard (EditOp.insert (['b']) none)
        ((NoteEditor.init 0).insert_text (['a']) none).undo.1 = true ∧
    (applyOp ((NoteEditor.init 0).insert_text (['a']) none).undo.1
        (EditOp.insert (['b']) none)).redo
      = (applyOp ((NoteEditor.init 0).insert_text (['a']) none).undo.1
        (EditOp.insert (['b']) none), false) := by
  refine ⟨by decide, ?_⟩
  exact (push_clears_redo (UndoRedoManager.init 100)
    { content := [], timestamp := 0, tags := [], cursor_position := 0 }
    ((NoteEditor.init 0).insert_text (['a']) none).undo.1
    (EditOp.insert (['b']) none) (by decide)).2.2

/-- Folding `push` over a list of states from a stack within capacity
leaves exactly the last `max_history` pushed-or-present states. -/
theorem pushFold_stack (L : List EditorState) : ∀ (m : Nat) (s r : List EditorState),
    s.length ≤ m →
    (L.foldl UndoRedoManager.push ⟨m, s, r⟩).undo_stack
      = (s ++ L).drop (s.length + L.length - m) := by
  induction L with
  | nil =>
    intro m s r h
    simp [Nat.sub_eq_zero_of_le h]
  | cons x L ih =>
    intro m s r h
    have hk : s.length + 1 - m ≤ (s ++ [x]).length := by
      simp
    have hlen : (dequeAppend m s x).length = s.length + 1 - (s.length + 1 - m) := by
      simp [dequeAppend]
    have hle : (dequeAppend m s x).length ≤ m := by omega
    have step : (x :: L).foldl UndoRedoManager.push ⟨m, s, r⟩
        = L.foldl UndoRedoManager.push ⟨m, dequeAppend m s x, []⟩ := by
      simp [UndoRedoManager.push]
    rw [step, ih m _ [] hle]
    rw [show dequeAppend m s x ++ L = ((s ++ [x]) ++ L).drop (s.length + 1 - m) from
      (List.drop_append_of_le_length hk).symm]
    rw [List.drop_drop, List.append_assoc, List.singleton_append]
    congr 1
    rw [hlen]
    simp only [List.length_cons]
    omega

/-- C7: pushing `max_history + 1` states into a fresh manager leaves
exactly `max_history` entries — the pushed states minus the oldest one,
evicted first — and no prefix of the pushes ever exceeds the bound. -/
theorem history_capacity (m : Nat) (states : List EditorState)
    (hlen : states.length = m + 1) (_hnd : states.Nodup) :
    (states.foldl UndoRedoManager.push (UndoRedoManager.init m)).undo_stack
      = states.drop 1 ∧
    (states.foldl UndoRedoManager.push (UndoRedoManager.init m)).undo_stack.length = m ∧
    ∀ k, ((states.take k).foldl UndoRedoManager.push
        (UndoRedoManager.init m)).undo_stack.length ≤ m := by
  have hmain := pushFold_stack states m [] [] (by simp)
  have hdrop : (states.foldl UndoRedoManager.push (UndoRedoManager.init m)).undo_stack
      = states.drop 1 := by
    rw [show UndoRedoManager.init m = (⟨m, [], []⟩ : UndoRedoManager) from rfl, hmain]
    simp [hlen]
  refine ⟨hdrop, ?_, ?_⟩
  · rw [hdrop]
    simp [hlen]
  · intro k
    have hk := pushFold_stack (states.take k) m [] [] (by simp)
    rw [show UndoRedoManager.init m = (⟨m, [], []⟩ : UndoRedoManager) from rfl, hk]
    simp only [List.nil_append, List.length_nil, Nat.zero_add, List.length_drop]
    omega

/-- Witness for C7: capacity 2 with three distinct states; the first is
evicted. -/
theorem history_capacity_witness :
    ([{ content := ['a'], timestamp := 0, tags := [], cursor_position := 0 },
      { content := ['b'], timestamp := 0, tags := [], cursor_position := 0 },
      { content := ['c'], timestamp := 0, tags := [], cursor_position := 0 }]
        : List EditorState).length = 2 + 1 ∧
    (([{ content := ['a'], timestamp := 0, tags := [], cursor_position := 0 },
       { content := ['b'], timestamp := 0, tags := [], cursor_position := 0 },
       { content := ['c'], timestamp := 0, tags := [], cursor_position := 0 }]
        : List EditorState).foldl UndoRedoManager.push
          (UndoRedoManager.init 2)).undo_stack
      = [{ content := ['b'], timestamp := 0, tags := [], cursor_position := 0 },
         { content := ['c'], timestamp := 0, tags := [], cursor_position := 0 }] := by
  refine ⟨by decide, ?_⟩
  have h := history_capacity 2
    [{ content := ['a'], timestamp := 0, tags := [], cursor_position := 0 },
     { content := ['b'], timestamp := 0, tags := [], cursor_position := 0 },
     { content := ['c'], timestamp := 0, tags := [], cursor_position := 0 }]
    (by decide) (by decide)
  exact h.1

/-- C1: on the code as written, `undo` followed immediately by `redo`
does NOT restore the pre-undo content and cursor.  After inserting
`"ab"` into a fresh editor (content `"ab"`, cursor 2, undo stack
non-empty), `undo` restores the empty snapshot and `redo` — although it
reports success — re-applies that same snapshot, because
`UndoRedoManager.undo` pushes the popped (pre-undo-stack) state onto the
redo stack instead of the state that was current before the undo. -/
theorem undo_redo_not_idempotent :
    ((NoteEditor.init 0).insert_text (['a', 'b']) none).undo_redo.can_undo = true ∧
    ((NoteEditor.init 0).insert_text (['a', 'b']) none).content = ['a', 'b'] ∧
    ((NoteEditor.init 0).insert_text (['a', 'b']) none).cursor_position = 2 ∧
    ((NoteEditor.init 0).insert_text (['a', 'b']) none).undo.1.redo.2 = true ∧
    ((NoteEditor.init 0).insert_text (['a', 'b']) none).undo.1.redo.1.content = [] ∧
    ((NoteEditor.init 0).insert_text (['a', 'b']) none).undo.1.redo.1.cursor_position = 0 ∧
    ((NoteEditor.init 0).insert_text (['a', 'b']) none).undo.1.redo.1.content
      ≠ ((NoteEditor.init 0).insert_text (['a', 'b']) none).content := by
  refine ⟨by decide, by decide, by decide, by decide, by decide, by decide, by decide⟩

/-- A deque append below capacity is a plain append. -/
theorem dequeAppend_of_lt {α : Type} {max : Nat} {s : List α} (x : α)
    (h : s.length < max) : dequeAppend max s x = s ++ [x] := by
  simp [dequeAppend, Nat.sub_eq_zero_of_le h]

/-- Any valid mutating call below capacity appends exactly the pre-call
snapshot to the undo stack, preserves the capacity, and re-establishes
the invariant that the current snapshot records the current content. -/
theorem applyOp_effects (e : NoteEditor) (op : EditOp) (hop : opGuard op e = true)
    (hlen : e.undo_redo.undo_stack.length < e.undo_redo.max_history) :
    (applyOp e op).undo_redo.undo_stack
      = e.undo_redo.undo_stack ++ [e.current_state] ∧
    (applyOp e op).undo_redo.max_history = e.undo_redo.max_history ∧
    (applyOp e op).current_state.content = (applyOp e op).content := by
  cases op with
  | insert text pos =>
    exact ⟨by simp [applyOp, NoteEditor.insert_text, UndoRedoManager.push,
      dequeAppend_of_lt _ hlen], rfl, rfl⟩
  | deleteRange a b =>
    exact ⟨by simp [applyOp, NoteEditor.delete_range, UndoRedoManager.push,
      dequeAppend_of_lt _ hlen], rfl, rfl⟩
  | setContent c =>
    have hne : e.content ≠ c := fun hcc => by
      simp [opGuard, hcc.symm] at hop
    exact ⟨by simp [applyOp, NoteEditor.set_content, hne, UndoRedoManager.push,
      dequeAppend_of_lt _ hlen], by simp [applyOp, NoteEditor.set_content, hne,
      UndoRedoManager.push], rfl⟩

/-- `undo` on an editor whose undo stack ends in `st` pops exactly `st`,
restores its content, and leaves the rest of the stack. -/
theorem undo_pop (e : NoteEditor) (s : List EditorState) (st : EditorState)
    (h : e.undo_redo.undo_stack = s ++ [st]) :
    e.undo.1.content = st.content ∧
    e.undo.1.current_state = st ∧
    e.undo.1.undo_redo.undo_stack = s ∧
    e.undo.1.undo_redo.max_history = e.undo_redo.max_history := by
  simp [NoteEditor.undo, UndoRedoManager.undo, h, List.getLast?_concat,
    List.dropLast_concat]

/-- Applying `n + 1` undos is applying `n` undos and then one more. -/
theorem applyUndos_succ (n : Nat) : ∀ (e : NoteEditor),
    applyUndos e (n + 1) = (applyUndos e n).undo.1 := by
  induction n with
  | zero => intro e; rfl
  | succ n ih =>
    intro e
    rw [show applyUndos e (n + 1 + 1) = applyUndos e.undo.1 (n + 1) from rfl, ih,
      show applyUndos e (n + 1) = applyUndos e.undo.1 n from rfl]

/-- Round-trip induction: a valid sequence of mutating calls that fits in
the remaining undo capacity, followed by as many undos, restores the
content, the current snapshot, and the undo stack. -/
theorem run_restore : ∀ (ops : List EditOp) (e : NoteEditor),
    e.current_state.content = e.content →
    opsValid e ops = true →
    e.undo_redo.undo_stack.length + ops.length ≤ e.undo_redo.max_history →
    (applyUndos (applyOps e ops) ops.length).content = e.content ∧
    (applyUndos (applyOps e ops) ops.length).current_state = e.current_state ∧
    (applyUndos (applyOps e ops) ops.length).undo_redo.undo_stack
      = e.undo_redo.undo_stack ∧
    (applyUndos (applyOps e ops) ops.length).undo_redo.max_history
      = e.undo_redo.max_history := by
  intro ops
  induction ops with
  | nil =>
    intro e hinv _ _
    exact ⟨rfl, rfl, rfl, rfl⟩
  | cons op rest ih =>
    intro e hinv hv hcap
    rw [opsValid, Bool.and_eq_true] at hv
    have hlen : e.undo_redo.undo_stack.length < e.undo_redo.max_history := by
      simp only [List.length_cons] at hcap
      omega
    obtain ⟨hstk, hmax, hinv'⟩ := applyOp_effects e op hv.1 hlen
    have hcap' : (applyOp e op).undo_redo.undo_stack.length + rest.length
        ≤ (applyOp e op).undo_redo.max_history := by
      rw [hstk, hmax]
      simp only [List.length_append, List.length_cons, List.length_nil] at hcap ⊢
      omega
    obtain ⟨ic, ics, istk, imax⟩ := ih (applyOp e op) hinv' hv.2 hcap'
    have hops : applyOps e (op :: rest) = applyOps (applyOp e op) rest := rfl
    have hrstack : (applyUndos (applyOps (applyOp e op) rest)
        rest.length).undo_redo.undo_stack
        = e.undo_redo.undo_stack ++ [e.current_state] := by
      rw [istk, hstk]
    obtain ⟨uc, ucs, ustk, umax⟩ := undo_pop _ _ _ hrstack
    rw [show (op :: rest).length = rest.length + 1 from rfl, hops,
      applyUndos_succ rest.length]
    refine ⟨?_, ucs, ustk, ?_⟩
    · rw [uc, hinv]
    · rw [umax, imax, hmax]

/-- C4 amended: for every editor whose current snapshot records the
current content, and every valid sequence of mutating calls
(`insert_text` / `delete_range` / content-changing `set_content` with
`save_state`) whose length fits in the REMAINING undo capacity
(`undo_stack` depth + n ≤ `max_history`), performing the calls and then
equally many `undo` calls returns the buffer content to its initial
value.  Without the capacity bound the claim fails (the oldest snapshot
is evicted). -/
theorem edits_then_undos_round_trip (e : NoteEditor) (ops : List EditOp)
    (hinv : e.current_state.content = e.content)
    (hvalid : opsValid e ops = true)
    (hcap : e.undo_redo.undo_stack.length + ops.length ≤ e.undo_redo.max_history) :
    (applyUndos (applyOps e ops) ops.length).content = e.content :=
  (run_restore ops e hinv hvalid hcap).1

/-- Witness for C4 amended: three mixed calls on a fresh editor. -/
theorem edits_then_undos_round_trip_witness :
    (applyUndos (applyOps (NoteEditor.init 0)
        [EditOp.insert (['a']) none, EditOp.setContent (['b', 'c']),
         EditOp.deleteRange 0 1]) 3).content = (NoteEditor.init 0).content :=
  edits_then_undos_round_trip (NoteEditor.init 0)
    [EditOp.insert (['a']) none, EditOp.setContent (['b', 'c']),
     EditOp.deleteRange 0 1] (by decide) (by decide) (by decide)

set_option maxRecDepth 40000 in
/-- C4 counterexample: 101 insertions on a fresh editor (capacity 100)
followed by 101 undos do NOT restore the initial empty content — the
first snapshot was evicted, so the editor is left with content `"a"`. -/
theorem round_trip_fails_beyond_capacity :
    (applyUndos (applyOps (NoteEditor.init 0)
        (List.replicate 101 (EditOp.insert (['a']) none))) 101).content = ['a'] ∧
    (NoteEditor.init 0).content = [] ∧
    (applyUndos (applyOps (NoteEditor.init 0)
        (List.replicate 101 (EditOp.insert (['a']) none))) 101).content
      ≠ (NoteEditor.init 0).content := by
  refine ⟨by decide, by decide, by decide⟩
